import Mathlib

/-
Verification of the surikiti reverse proxy upstream pool, forwarding
state machine, CORS filter and lifecycle operations, via a shallow
embedding of the Go sources (loadbalancer package, proxy package,
server manager) into Lean.
-/

namespace Surikiti

/-- One upstream backend (loadbalancer.Upstream): name, parsed URL,
weight, health-check path, atomic healthy flag, atomic in-flight
connection counter. -/
structure Upstream where
  name : String
  url : String
  weight : Nat
  healthCheck : String
  healthy : Bool
  connections : Int
deriving DecidableEq, Repr

/-- The pool (loadbalancer.LoadBalancer): ordered backend sequence, the
policy tag, and the shared uint64 selection counter (kept below 2^64,
arithmetic wraps modulo 2^64 as in Go). Timeout and retry fields are
omitted: they are not read by any selection operation. -/
structure LoadBalancer where
  upstreams : List Upstream
  method : String
  current : Nat
deriving DecidableEq, Repr

/-- The wrap modulus 2^64 of the Go uint64 selection counter. -/
def UINT64MOD : Nat := 18446744073709551616

/-- roundRobin: index := atomic.AddUint64(current, 1) mod len(upstreams);
returns the new counter and upstreams[index]. (Go would fault on an
empty slice; the caller only passes non-empty slices.) -/
def roundRobin (current : Nat) (ups : List Upstream) : Nat × Option Upstream :=
  let c := (current + 1) % UINT64MOD
  (c, ups[c % ups.length]?)

/-- Sum of backend weights (the totalWeight accumulation loop). -/
def totalWeight (ups : List Upstream) : Nat :=
  (ups.map (fun u => u.weight)).sum

/-- The weighted walk: accumulate weights; return the first upstream at
which index < currentWeight (running sum strictly exceeds the draw). -/
def pickWeighted (k : Nat) : List Upstream → Nat → Option Upstream
  | [], _ => none
  | u :: rest, acc =>
      let acc2 := acc + u.weight
      if k < acc2 then some u else pickWeighted k rest acc2

/-- weightedRoundRobin: if totalWeight is 0 fall back to roundRobin,
otherwise draw index := (current+1) mod totalWeight from the
post-incremented counter, walk the list, and fall back to upstreams[0]
if the walk somehow finds nothing. -/
def weightedRoundRobin (current : Nat) (ups : List Upstream) : Nat × Option Upstream :=
  if totalWeight ups = 0 then roundRobin current ups
  else
    let c := (current + 1) % UINT64MOD
    let k := c % totalWeight ups
    match pickWeighted k ups 0 with
    | some u => (c, some u)
    | none => (c, ups[0]?)

/-- One step of the leastConnections scan: minConnections starts at -1
(sentinel); an upstream is selected when the sentinel is still present or
its connection count is strictly smaller. -/
def leastConnStep (acc : Option Upstream × Int) (u : Upstream) : Option Upstream × Int :=
  if acc.2 = -1 ∨ u.connections < acc.2 then (some u, u.connections) else acc

/-- leastConnections: pick the healthy backend with the smallest
in-flight count, first occurrence winning ties. -/
def leastConnections (ups : List Upstream) : Option Upstream :=
  (ups.foldl leastConnStep (none, -1)).1

/-- single: always return the first upstream of the (healthy) slice. -/
def single (ups : List Upstream) : Option Upstream :=
  if 0 < ups.length then ups.head? else none

/-- The switch on lb.method inside GetUpstream (default: round robin).
least_connections and single do not touch the counter. -/
def selectFrom (method : String) (current : Nat) (healthy : List Upstream) : Nat × Option Upstream :=
  if method = "round_robin" then roundRobin current healthy
  else if method = "weighted_round_robin" then weightedRoundRobin current healthy
  else if method = "least_connections" then (current, leastConnections healthy)
  else if method = "single" then (current, single healthy)
  else roundRobin current healthy

/-- GetUpstream: filter the healthy subsequence; return nil when it is
empty, otherwise dispatch on the policy. Returns the updated pool
(selection counter) together with the chosen backend. -/
def GetUpstream (lb : LoadBalancer) : LoadBalancer × Option Upstream :=
  let healthy := lb.upstreams.filter (fun u => u.healthy)
  if healthy.isEmpty then (lb, none)
  else
    let r := selectFrom lb.method lb.current healthy
    ({ lb with current := r.1 }, r.2)

/-- MarkUnhealthy: atomic store of 0 into the healthy flag of the backend.
Go mutates through a pointer into the slice of the pool; backends are
identified here by their (unique) name. -/
def markOne (n : String) (u : Upstream) : Upstream :=
  if u.name = n then { u with healthy := false } else u

def MarkUnhealthy (lb : LoadBalancer) (n : String) : LoadBalancer :=
  { lb with upstreams := lb.upstreams.map (markOne n) }

/-- Names returned by n consecutive GetUpstream calls, threading the
updated pool state through. -/
def selectNames : LoadBalancer → Nat → List (Option String)
  | _, 0 => []
  | lb, n + 1 =>
      let r := GetUpstream lb
      (r.2.map (fun u => u.name)) :: selectNames r.1 n

/-- How many of the n selections picked the named backend. -/
def countName (l : List (Option String)) (s : String) : Nat :=
  (l.filter (fun x => x = some s)).length

/-- config.UpstreamConfig: the per-backend configuration record. -/
structure UpstreamConfig where
  name : String
  url : String
  weight : Nat
  healthCheck : String
deriving DecidableEq, Repr

/-- The body of the construction loop shared by NewLoadBalancer and
NewWebSocketLoadBalancer: Healthy is set to 1 (true) at construction. -/
def mkUpstream (uc : UpstreamConfig) : Upstream :=
  { name := uc.name, url := uc.url, weight := uc.weight,
    healthCheck := uc.healthCheck, healthy := true, connections := 0 }

/-- NewLoadBalancer (success path; a URL parse error aborts construction
and yields no pool at all). The counter starts at 0. -/
def NewLoadBalancer (cfgs : List UpstreamConfig) (method : String) : LoadBalancer :=
  { upstreams := cfgs.map mkUpstream, method := method, current := 0 }

/-- NewWebSocketLoadBalancer: identical construction over the WebSocket
upstream catalog. -/
def NewWebSocketLoadBalancer (cfgs : List UpstreamConfig) (method : String) : LoadBalancer :=
  { upstreams := cfgs.map mkUpstream, method := method, current := 0 }

/-- Fixture: one healthy backend named A. -/
def upA : Upstream :=
  { name := "A", url := "http://a:3001", weight := 1,
    healthCheck := "/health", healthy := true, connections := 0 }

/-- Fixture: a pool holding only upA, round-robin policy, fresh counter. -/
def lb1 : LoadBalancer := { upstreams := [upA], method := "round_robin", current := 0 }

/-- Fixture: backend B, equal weight, healthy. -/
def upB : Upstream :=
  { name := "B", url := "http://b:3002", weight := 1,
    healthCheck := "/health", healthy := true, connections := 0 }

/-- Fixture: backend C, equal weight, healthy. -/
def upC : Upstream :=
  { name := "C", url := "http://c:3003", weight := 1,
    healthCheck := "/health", healthy := true, connections := 0 }

/-- Fixture for scenario S1: fresh pool [A,B,C], all healthy, equal
weights, round_robin policy, counter 0. -/
def lb3 : LoadBalancer :=
  { upstreams := [upA, upB, upC], method := "round_robin", current := 0 }

/-- Fixture: backend A with weight 3 for scenario S2. -/
def upAW : Upstream :=
  { name := "A", url := "http://a:3001", weight := 3,
    healthCheck := "/health", healthy := true, connections := 0 }

/-- Fixture: backend B with weight 1 for scenario S2. -/
def upBW : Upstream :=
  { name := "B", url := "http://b:3002", weight := 1,
    healthCheck := "/health", healthy := true, connections := 0 }

/-- Fixture for scenario S2: pool [A(w=3), B(w=1)], policy
weighted_round_robin, all healthy, fresh counter. -/
def lbW : LoadBalancer :=
  { upstreams := [upAW, upBW], method := "weighted_round_robin", current := 0 }

-- CORS filter (handleCORS / sendResponse in proxy/http_handler.go)

/-- config.CORSConfig. MaxAge is Go int, serialized with strconv.Itoa. -/
structure CORSConfig where
  enabled : Bool
  allowedOrigins : List String
  allowedMethods : List String
  allowedHeaders : List String
  exposedHeaders : List String
  allowCredentials : Bool
  maxAge : Int
deriving DecidableEq, Repr

/-- Origin negotiation as coded: the wildcard short-circuit fires only
when the list is empty or its FIRST entry is the literal star; otherwise
the request origin must equal some list entry and is echoed back; a
non-matching origin yields none (handleCORS returns false). -/
def corsAllowedOrigin (allowedOrigins : List String) (origin : String) : Option String :=
  if 0 < allowedOrigins.length ∧ allowedOrigins.head? ≠ some "*" then
    if origin ∈ allowedOrigins then some origin else none
  else some "*"

/-- The origin negotiation as the claim words it: a star ANYWHERE in the
list (or an empty list) permits every origin with the advertised star. -/
def corsAllowedOriginClaim (allowedOrigins : List String) (origin : String) : Option String :=
  if allowedOrigins = [] ∨ "*" ∈ allowedOrigins then some "*"
  else if origin ∈ allowedOrigins then some origin else none

/-- A written preflight response: status plus the headers set on it. -/
structure PreflightResponse where
  status : Nat
  headers : List (String × String)
deriving DecidableEq, Repr

/-- The headers handleCORS sets on a preflight response, in Set order:
origin, methods and headers joined by comma-space, credentials only when
the policy permits them, max-age as decimal, content-length zero. -/
def preflightHeaders (cors : CORSConfig) (allowedOrigin : String) : List (String × String) :=
  [("Access-Control-Allow-Origin", allowedOrigin),
   ("Access-Control-Allow-Methods", String.intercalate ", " cors.allowedMethods),
   ("Access-Control-Allow-Headers", String.intercalate ", " cors.allowedHeaders)] ++
  (if cors.allowCredentials then [("Access-Control-Allow-Credentials", "true")] else []) ++
  [("Access-Control-Max-Age", toString cors.maxAge),
   ("Content-Length", "0")]

/-- handleCORS: none = the filter wrote nothing and HandleTraffic
continues (PASS); some r = a preflight response r was written and the
request is finished. Only an OPTIONS request with a negotiated origin
under an enabled policy short-circuits. -/
def handleCORS (cors : CORSConfig) (origin httpMethod : String) : Option PreflightResponse :=
  if cors.enabled = false then none
  else
    match corsAllowedOrigin cors.allowedOrigins origin with
    | none => none
    | some ao =>
        if httpMethod = "OPTIONS" then
          some { status := 200, headers := preflightHeaders cors ao }
        else none

/-- The CORS headers sendResponse stamps on every forwarded response
when the policy is enabled: an unconditional star origin, the exposed
headers when configured, credentials when permitted. -/
def sendResponseCORSHeaders (cors : CORSConfig) : List (String × String) :=
  if cors.enabled then
    [("Access-Control-Allow-Origin", "*")] ++
    (if cors.exposedHeaders.isEmpty then []
     else [("Access-Control-Expose-Headers",
            String.intercalate ", " cors.exposedHeaders)]) ++
    (if cors.allowCredentials then [("Access-Control-Allow-Credentials", "true")] else [])
  else []

/-- Scenario S6 fixture: enabled policy, allowed_origins = [https-app],
allowed_methods = [GET, POST], allowed_headers = [Content-Type],
max_age = 600, no credentials. -/
def cfgS6 : CORSConfig :=
  { enabled := true, allowedOrigins := ["https://app"],
    allowedMethods := ["GET", "POST"], allowedHeaders := ["Content-Type"],
    exposedHeaders := [], allowCredentials := false, maxAge := 600 }

-- Forwarding state machine (HandleTraffic / HandleHTTPProxy /
-- forwardRequest in proxy/http_handler.go, HandleWebSocket in
-- proxy/websocket_handler.go)

/-- Observable counter events on the pool: IncreaseConnections,
DecreaseConnections, and one upstream dispatch attempt. -/
inductive Ev
  | acquire (n : String)
  | release (n : String)
  | dispatch (n : String)
deriving DecidableEq, Repr

/-- Effect of one event on the per-backend in-flight counters. -/
def applyEv (f : String → Int) : Ev → String → Int
  | Ev.acquire n, m => if m = n then f m + 1 else f m
  | Ev.release n, m => if m = n then f m - 1 else f m
  | Ev.dispatch _, m => f m

/-- Effect of an event trace on the in-flight counters. -/
def applyEvs (f : String → Int) : List Ev → String → Int
  | [] => f
  | e :: rest => applyEvs (fun m => applyEv f e m) rest

/-- Occurrences of one event in a trace. -/
def countEv (evs : List Ev) (e : Ev) : Nat :=
  (evs.filter (fun x => x = e)).length

/-- The request-scoped inputs HandleTraffic reacts to: sizes of the raw
request bytes, whether fasthttp parsing succeeds, whether a method is
present, the Origin and method headers, the outcome of each upstream
dispatch attempt (true = that attempt errors), and whether writing the
response back to the client succeeds. -/
structure TrafficEnv where
  headerLen : Nat
  bodyLen : Nat
  parseOk : Bool
  methodNonEmpty : Bool
  origin : String
  httpMethod : String
  fails : Nat → Bool
  sendOk : Bool

/-- How a request terminates at the client connection. -/
inductive Outcome
  | connClose
  | resp (status : Nat)
  | served
deriving DecidableEq, Repr

/-- The hot-path retry loop of forwardRequest: for i in [0, maxRetries)
try the dispatch; on success return immediately; when the LAST attempt
(i = maxRetries-1) fails, remember to mark the backend unhealthy. The
fuel argument rem equals maxRetries - i. Returns (dispatch count,
mark-unhealthy flag, success flag). -/
def hotLoop (fails : Nat → Bool) : Nat → Nat → Nat × Bool × Bool
  | 0, _ => (0, false, false)
  | rem + 1, i =>
      if fails i = false then (1, false, true)
      else
        let r := hotLoop fails rem (i + 1)
        (r.1 + 1, decide (rem = 0) || r.2.1, r.2.2)

/-- forwardRequest (hot gnet path): maxRetries = 2, so at most two
dispatches; marks the chosen backend unhealthy when the final attempt
fails. Returns the updated pool, the dispatch count and success. -/
def forwardRequest (lb : LoadBalancer) (u : Upstream) (fails : Nat → Bool) :
    LoadBalancer × Nat × Bool :=
  let r := hotLoop fails 2 0
  (if r.2.1 then MarkUnhealthy lb u.name else lb, r.1, r.2.2)

/-- HandleTraffic (gnet hot path): empty data closes; data larger than
max_body_size is refused with 413 before anything else (the configured
max_header_size is carried in the proxy configuration but never read on
this path); a parse or missing-method failure gives 400; an enabled CORS
preflight short-circuits with 200; no healthy upstream gives 503;
otherwise the in-flight counter of the chosen backend is incremented,
the request is forwarded with bounded retry, and the counter is
decremented on every exit path (Go defer). -/
def HandleTraffic (lb : LoadBalancer) (maxBodySize maxHeaderSize : Nat)
    (cors : CORSConfig) (env : TrafficEnv) : LoadBalancer × List Ev × Outcome :=
  let reqLen := env.headerLen + env.bodyLen
  if reqLen = 0 then (lb, [], Outcome.connClose)
  else if maxBodySize < reqLen then (lb, [], Outcome.resp 413)
  else if env.parseOk = false then (lb, [], Outcome.resp 400)
  else if env.methodNonEmpty = false then (lb, [], Outcome.resp 400)
  else if (handleCORS cors env.origin env.httpMethod).isSome then
    (lb, [], Outcome.resp 200)
  else
    let s := GetUpstream lb
    match s.2 with
    | none => (s.1, [], Outcome.resp 503)
    | some u =>
        let fr := forwardRequest s.1 u env.fails
        let evs := Ev.acquire u.name ::
          (List.replicate fr.2.1 (Ev.dispatch u.name) ++ [Ev.release u.name])
        if fr.2.2 = false then (fr.1, evs, Outcome.resp 502)
        else if env.sendOk = false then (fr.1, evs, Outcome.connClose)
        else (fr.1, evs, Outcome.served)

/-- All request gates of HandleTraffic up to and including upstream
selection (step 5 is reached exactly when this is true and the pool has
a healthy backend). -/
def gatesPass (maxBodySize : Nat) (cors : CORSConfig) (env : TrafficEnv) : Bool :=
  decide (env.headerLen + env.bodyLen ≠ 0) &&
  decide (env.headerLen + env.bodyLen ≤ maxBodySize) &&
  env.parseOk && env.methodNonEmpty &&
  !(handleCORS cors env.origin env.httpMethod).isSome

/-- The retry loop of HandleHTTPProxy: for attempt in [0, maxRetries]
(maxRetries = 3, hence up to four dispatches); no health marking at all.
Returns (dispatch count, success flag). -/
def httpLoop (fails : Nat → Bool) : Nat → Nat → Nat × Bool
  | 0, _ => (0, false)
  | rem + 1, i =>
      if fails i = false then (1, true)
      else
        let r := httpLoop fails rem (i + 1)
        (r.1 + 1, r.2)

/-- HandleHTTPProxy (context-bound net/http path): select, acquire,
attempt up to maxRetries+1 = 4 dispatches, respond 502 Bad Gateway when
all fail — the health flag of the backend is NOT touched on this path —
and release on every exit (Go defer). newReqOk models the
http.NewRequestWithContext error branch (500). -/
def HandleHTTPProxy (lb : LoadBalancer) (newReqOk : Bool) (fails : Nat → Bool) :
    LoadBalancer × List Ev × Outcome :=
  let s := GetUpstream lb
  match s.2 with
  | none => (s.1, [], Outcome.resp 503)
  | some u =>
      if newReqOk = false then
        (s.1, [Ev.acquire u.name, Ev.release u.name], Outcome.resp 500)
      else
        let r := httpLoop fails 4 0
        let evs := Ev.acquire u.name ::
          (List.replicate r.1 (Ev.dispatch u.name) ++ [Ev.release u.name])
        if r.2 = false then (s.1, evs, Outcome.resp 502)
        else (s.1, evs, Outcome.served)

/-- Request-scoped inputs of HandleWebSocket: whether the stored
upstream URL is nil, whether the client upgrade succeeds, and whether
the dial to the backend succeeds. -/
structure WsEnv where
  urlNil : Bool
  upgradeOk : Bool
  dialOk : Bool
deriving DecidableEq, Repr

/-- How a WebSocket request terminates. -/
inductive WsOutcome
  | resp (status : Nat)
  | upgradeFail
  | closedPolicyViolation
  | relayDone
deriving DecidableEq, Repr

/-- HandleWebSocket: no healthy WebSocket upstream gives 503 before any
acquisition; afterwards the in-flight counter is incremented and every
exit path — nil URL (500), upgrade failure, dial failure (close frame
with reason Upstream connection failed), and normal relay termination —
releases it via defer. -/
def HandleWebSocket (lb : LoadBalancer) (env : WsEnv) :
    LoadBalancer × List Ev × WsOutcome :=
  let s := GetUpstream lb
  match s.2 with
  | none => (s.1, [], WsOutcome.resp 503)
  | some u =>
      if env.urlNil then
        (s.1, [Ev.acquire u.name, Ev.release u.name], WsOutcome.resp 500)
      else if env.upgradeOk = false then
        (s.1, [Ev.acquire u.name, Ev.release u.name], WsOutcome.upgradeFail)
      else if env.dialOk = false then
        (s.1, [Ev.acquire u.name, Ev.release u.name], WsOutcome.closedPolicyViolation)
      else
        (s.1, [Ev.acquire u.name, Ev.release u.name], WsOutcome.relayDone)

-- Lifecycle (StartHealthCheck / StopHealthCheck in the loadbalancer
-- package, shutdownServerInstance in server/manager.go)

/-- State of the shutdown channel of a pool. -/
inductive ChanState
  | chOpen
  | chClosed
deriving DecidableEq, Repr

/-- Lifecycle state of the health checker of a pool: the ticker pointer
(none = nil; some b with b = already stopped) and the shutdown channel
pointer (none = nil). -/
structure HealthLife where
  tickerStopped : Option Bool
  shutdownChan : Option ChanState
deriving DecidableEq, Repr

/-- StartHealthCheck: allocates the ticker and the shutdown channel. -/
def StartHealthCheck (_ : HealthLife) : HealthLife :=
  { tickerStopped := some false, shutdownChan := some ChanState.chOpen }

/-- StopHealthCheck: Ticker.Stop is safe to repeat, but close() of an
already-closed Go channel panics. Returns the state at the point the
call finishes (or panics) and whether it panicked. -/
def StopHealthCheck (s : HealthLife) : HealthLife × Bool :=
  let s1 : HealthLife := { s with tickerStopped := s.tickerStopped.map (fun _ => true) }
  match s1.shutdownChan with
  | none => (s1, false)
  | some ChanState.chOpen => ({ s1 with shutdownChan := some ChanState.chClosed }, false)
  | some ChanState.chClosed => (s1, true)

/-- The recover() wrapper both shutdownServerInstance and
ProxyServer.Shutdown put around StopHealthCheck: a double-close panic is
swallowed and the state reached at the panic point is kept. -/
def guardedStopHealthCheck (s : HealthLife) : HealthLife :=
  (StopHealthCheck s).1

/-- The shutdown-relevant state of one server instance: the standard
HTTP server (for websocket instances), the checker of the HTTP pool and the
checker of the WebSocket pool. -/
structure InstanceState where
  httpServerDown : Bool
  lbLife : HealthLife
  wsLbLife : HealthLife
deriving DecidableEq, Repr

/-- shutdownServerInstance: shut the HTTP server down (idempotent),
guard-stop the checker of the HTTP pool, guard-stop the checker of
the WebSocket pool, then call ProxyServer.Shutdown which guard-stops the HTTP
checker of the HTTP pool a second time. -/
def shutdownServerInstance (i : InstanceState) : InstanceState :=
  let i1 : InstanceState := { i with httpServerDown := true }
  let i2 : InstanceState := { i1 with
    lbLife := guardedStopHealthCheck i1.lbLife,
    wsLbLife := guardedStopHealthCheck i1.wsLbLife }
  { i2 with lbLife := guardedStopHealthCheck i2.lbLife }

/-- Fixture: dispatch oracle on which every attempt errors. -/
def allFail : Nat → Bool := fun _ => true

/-- Fixture: dispatch oracle on which every attempt succeeds. -/
def noFail : Nat → Bool := fun _ => false

/-- Fixture: a disabled CORS policy. -/
def corsOff : CORSConfig :=
  { enabled := false, allowedOrigins := [], allowedMethods := [],
    allowedHeaders := [], exposedHeaders := [], allowCredentials := false,
    maxAge := 0 }

/-- Fixture for the C6 counterexample: oversized headers (2048 bytes,
above the 1024-byte header cap), empty body, well-formed request. -/
def envHdr : TrafficEnv :=
  { headerLen := 2048, bodyLen := 0, parseOk := true, methodNonEmpty := true,
    origin := "", httpMethod := "GET", fails := noFail, sendOk := true }

/-- Fixture for scenario S5: a 2048-byte body against max_body_size
1024. -/
def envBig : TrafficEnv :=
  { headerLen := 64, bodyLen := 2048, parseOk := true, methodNonEmpty := true,
    origin := "", httpMethod := "POST", fails := noFail, sendOk := true }

/-- Fixture: a small well-formed GET request. -/
def envOk : TrafficEnv :=
  { headerLen := 64, bodyLen := 0, parseOk := true, methodNonEmpty := true,
    origin := "", httpMethod := "GET", fails := noFail, sendOk := true }

/-- Fixture: a WebSocket request whose upgrade and dial both succeed. -/
def wsEnvOk : WsEnv := { urlNil := false, upgradeOk := true, dialOk := true }

/-- Fixture: the configuration record used to build single-backend
pools. -/
def ucA : UpstreamConfig :=
  { name := "A", url := "http://a:3001", weight := 1, healthCheck := "/health" }

-- Selection helper lemmas

theorem pickWeighted_mem : ∀ (l : List Upstream) (k acc : Nat) (u : Upstream),
    pickWeighted k l acc = some u → u ∈ l := by
  intro l
  induction l with
  | nil => intro k acc u h; simp [pickWeighted] at h
  | cons a rest ih =>
      intro k acc u h
      simp only [pickWeighted] at h
      split at h
      · cases h; exact List.mem_cons_self a rest
      · exact List.mem_cons_of_mem a (ih _ _ u h)

theorem roundRobin_mem (c : Nat) (ups : List Upstream) (u : Upstream)
    (h : (roundRobin c ups).2 = some u) : u ∈ ups := by
  simp only [roundRobin] at h
  exact List.getElem?_mem h

theorem roundRobin_ne_none (c : Nat) (ups : List Upstream) (h : ups ≠ []) :
    (roundRobin c ups).2 ≠ none := by
  simp only [roundRobin]
  have hlen : 0 < ups.length := List.length_pos.mpr h
  have hidx : ((c + 1) % UINT64MOD) % ups.length < ups.length := Nat.mod_lt _ hlen
  simp [List.getElem?_eq_getElem hidx]

theorem weightedRoundRobin_mem (c : Nat) (ups : List Upstream) (u : Upstream)
    (h : (weightedRoundRobin c ups).2 = some u) : u ∈ ups := by
  simp only [weightedRoundRobin] at h
  split at h
  · exact roundRobin_mem c ups u h
  · split at h
    next v hv =>
      simp only at h
      cases h
      exact pickWeighted_mem ups _ 0 _ hv
    next hv =>
      simp only at h
      exact List.getElem?_mem h

theorem weightedRoundRobin_ne_none (c : Nat) (ups : List Upstream) (h : ups ≠ []) :
    (weightedRoundRobin c ups).2 ≠ none := by
  simp only [weightedRoundRobin]
  split
  · exact roundRobin_ne_none c ups h
  · split
    next v hv => simp
    next hv =>
      have hlen : 0 < ups.length := List.length_pos.mpr h
      simp [List.getElem?_eq_getElem hlen]

theorem leastConn_foldl_shape : ∀ (l : List Upstream) (acc : Option Upstream × Int),
    (l.foldl leastConnStep acc).1 = acc.1 ∨ ∃ u ∈ l, (l.foldl leastConnStep acc).1 = some u := by
  intro l
  induction l with
  | nil => intro acc; exact Or.inl rfl
  | cons a rest ih =>
      intro acc
      rw [List.foldl_cons]
      rcases ih (leastConnStep acc a) with h | ⟨u, hu, h⟩
      · by_cases hc : acc.2 = -1 ∨ a.connections < acc.2
        · rw [h]; simp only [leastConnStep, if_pos hc]
          exact Or.inr ⟨a, List.mem_cons_self a rest, rfl⟩
        · rw [h]
          exact Or.inl (by simp [leastConnStep, if_neg hc])
      · exact Or.inr ⟨u, List.mem_cons_of_mem a hu, h⟩

theorem leastConnections_mem (ups : List Upstream) (u : Upstream)
    (h : leastConnections ups = some u) : u ∈ ups := by
  simp only [leastConnections] at h
  rcases leastConn_foldl_shape ups (none, -1) with hs | ⟨v, hv, hs⟩
  · rw [h] at hs; cases hs
  · rw [h] at hs; cases hs; exact hv

theorem leastConnections_ne_none (ups : List Upstream) (h : ups ≠ []) :
    leastConnections ups ≠ none := by
  match ups, h with
  | a :: rest, _ =>
      simp only [leastConnections, List.foldl_cons]
      have hstep : leastConnStep (none, -1) a = (some a, a.connections) := by
        simp [leastConnStep]
      rw [hstep]
      rcases leastConn_foldl_shape rest (some a, a.connections) with hs | ⟨u, _, hs⟩
      · rw [hs]; simp
      · rw [hs]; simp

theorem single_mem (ups : List Upstream) (u : Upstream)
    (h : single ups = some u) : u ∈ ups := by
  simp only [single] at h
  split at h
  · exact List.mem_of_mem_head? h
  · cases h

theorem single_ne_none (ups : List Upstream) (h : ups ≠ []) :
    single ups ≠ none := by
  match ups, h with
  | a :: rest, _ => simp [single]

theorem selectFrom_mem (m : String) (c : Nat) (H : List Upstream) (u : Upstream)
    (h : (selectFrom m c H).2 = some u) : u ∈ H := by
  simp only [selectFrom] at h
  split at h
  · exact roundRobin_mem c H u h
  · split at h
    · exact weightedRoundRobin_mem c H u h
    · split at h
      · exact leastConnections_mem H u h
      · split at h
        · exact single_mem H u h
        · exact roundRobin_mem c H u h

theorem selectFrom_ne_none (m : String) (c : Nat) (H : List Upstream) (h : H ≠ []) :
    (selectFrom m c H).2 ≠ none := by
  simp only [selectFrom]
  split
  · exact roundRobin_ne_none c H h
  · split
    · exact weightedRoundRobin_ne_none c H h
    · split
      · exact leastConnections_ne_none H h
      · split
        · exact single_ne_none H h
        · exact roundRobin_ne_none c H h

theorem getUpstream_none_iff (lb : LoadBalancer) :
    (GetUpstream lb).2 = none ↔ lb.upstreams.filter (fun u => u.healthy) = [] := by
  simp only [GetUpstream]
  split
  next he => simpa [List.isEmpty_iff] using he
  next he =>
    have hne : lb.upstreams.filter (fun u => u.healthy) ≠ [] := by
      simpa [List.isEmpty_iff] using he
    simp only
    constructor
    · intro h; exact absurd h (selectFrom_ne_none lb.method lb.current _ hne)
    · intro h; exact absurd h hne

theorem getUpstream_mem_healthy (lb : LoadBalancer) (u : Upstream)
    (h : (GetUpstream lb).2 = some u) : u ∈ lb.upstreams.filter (fun v => v.healthy) := by
  simp only [GetUpstream] at h
  split at h
  · cases h
  · exact selectFrom_mem lb.method lb.current _ u h

theorem getUpstream_upstreams (lb : LoadBalancer) :
    (GetUpstream lb).1.upstreams = lb.upstreams := by
  simp only [GetUpstream]
  split
  · rfl
  · rfl

/-- C1: GetUpstream returns NONE exactly when no backend of the pool is
healthy; whenever it returns a backend, the healthy flag of that backend is
set — it never returns an unhealthy backend while a healthy one exists. -/
theorem c1_select_healthy (lb : LoadBalancer) :
    ((GetUpstream lb).2 = none ↔ ∀ u ∈ lb.upstreams, u.healthy = false) ∧
    (∀ u, (GetUpstream lb).2 = some u → u.healthy = true) := by
  constructor
  · rw [getUpstream_none_iff, List.filter_eq_nil_iff]
    simp
  · intro u h
    have hm := getUpstream_mem_healthy lb u h
    exact (List.mem_filter.mp hm).2

theorem c1_select_healthy_witness : upA.healthy = true :=
  (c1_select_healthy lb1).2 upA (by decide)

/-- C4 counterexample: on the fresh three-backend pool the first nine
selections are B,C,A,B,C,A,B,C,A — not A,B,C,A,B,C,A,B,C as the claim
states. The post-incremented counter makes the first pick H[1]. -/
theorem c4_counterexample :
    selectNames lb3 9 =
      [some "B", some "C", some "A", some "B", some "C", some "A",
       some "B", some "C", some "A"] ∧
    selectNames lb3 9 ≠
      [some "A", some "B", some "C", some "A", some "B", some "C",
       some "A", some "B", some "C"] := by
  constructor
  · rfl
  · decide

/-- C4 (amended): under round_robin, GetUpstream returns
H[(c+1) mod |H|] where H is the healthy subsequence in pool order and c
is the counter before the call (post-incremented); on the fresh pool
[A,B,C] the nine selections are B,C,A,B,C,A,B,C,A with three picks per
backend. -/
theorem c4_round_robin (lb : LoadBalancer) :
    (lb.method = "round_robin" → lb.current + 1 < UINT64MOD →
      (GetUpstream lb).2 =
        (lb.upstreams.filter (fun u => u.healthy))[(lb.current + 1) %
          (lb.upstreams.filter (fun u => u.healthy)).length]?) ∧
    (selectNames lb3 9 =
      [some "B", some "C", some "A", some "B", some "C", some "A",
       some "B", some "C", some "A"] ∧
     countName (selectNames lb3 9) "A" = 3 ∧
     countName (selectNames lb3 9) "B" = 3 ∧
     countName (selectNames lb3 9) "C" = 3) := by
  constructor
  · intro hm hc
    simp only [GetUpstream]
    split
    next he =>
      have : lb.upstreams.filter (fun u => u.healthy) = [] := by
        simpa [List.isEmpty_iff] using he
      simp [this]
    next he =>
      simp [selectFrom, hm, roundRobin, Nat.mod_eq_of_lt hc]
  · exact ⟨rfl, rfl, rfl, rfl⟩

theorem c4_round_robin_witness :
    (GetUpstream lb3).2 =
      (lb3.upstreams.filter (fun u => u.healthy))[(lb3.current + 1) %
        (lb3.upstreams.filter (fun u => u.healthy)).length]? :=
  (c4_round_robin lb3).1 rfl (by decide)

-- Weighted round robin: the first-exceed characterization (claim C5)

theorem pickWeighted_eq_some_iff :
    ∀ (l : List Upstream) (k acc : Nat), acc ≤ k → ∀ u : Upstream,
      (pickWeighted k l acc = some u ↔
        ∃ i, ∃ h : i < l.length, l.get ⟨i, h⟩ = u ∧
          acc + totalWeight (l.take i) ≤ k ∧
          k < acc + totalWeight (l.take (i + 1))) := by
  intro l
  induction l with
  | nil =>
      intro k acc _ u
      simp [pickWeighted]
  | cons a rest ih =>
      intro k acc hacc u
      simp only [pickWeighted]
      by_cases hk : k < acc + a.weight
      · rw [if_pos hk]
        constructor
        · intro h
          cases h
          refine ⟨0, by simp, rfl, ?_, ?_⟩
          · simpa [totalWeight] using hacc
          · simpa [totalWeight] using hk
        · rintro ⟨i, hi, hget, h1, h2⟩
          cases i with
          | zero => simp at hget; rw [hget]
          | succ j =>
              exfalso
              have htake : (a :: rest).take (j + 1) = a :: rest.take j :=
                List.take_succ_cons
              rw [htake] at h1
              have : acc + a.weight ≤ k := by
                have hw : totalWeight (a :: rest.take j) =
                    a.weight + totalWeight (rest.take j) := by
                  simp [totalWeight]
                omega
              omega
      · rw [if_neg hk]
        have hacc2 : acc + a.weight ≤ k := by omega
        rw [ih k (acc + a.weight) hacc2 u]
        constructor
        · rintro ⟨i, hi, hget, h1, h2⟩
          refine ⟨i + 1, by simpa using Nat.succ_lt_succ hi, ?_, ?_, ?_⟩
          · simpa using hget
          · rw [List.take_succ_cons]
            have hw : totalWeight (a :: rest.take i) =
                a.weight + totalWeight (rest.take i) := by
              simp [totalWeight]
            omega
          · rw [List.take_succ_cons]
            have hw : totalWeight (a :: rest.take (i + 1)) =
                a.weight + totalWeight (rest.take (i + 1)) := by
              simp [totalWeight]
            omega
        · rintro ⟨i, hi, hget, h1, h2⟩
          cases i with
          | zero =>
              exfalso
              have hw : totalWeight ((a :: rest).take (0 + 1)) = a.weight := by
                simp [totalWeight]
              omega
          | succ j =>
              refine ⟨j, by simpa using Nat.lt_of_succ_lt_succ hi, ?_, ?_, ?_⟩
              · simpa using hget
              · rw [List.take_succ_cons] at h1
                have hw : totalWeight (a :: rest.take j) =
                    a.weight + totalWeight (rest.take j) := by
                  simp [totalWeight]
                omega
              · rw [List.take_succ_cons] at h2
                have hw : totalWeight (a :: rest.take (j + 1)) =
                    a.weight + totalWeight (rest.take (j + 1)) := by
                  simp [totalWeight]
                omega

theorem pickWeighted_ne_none :
    ∀ (l : List Upstream) (k acc : Nat), acc ≤ k → k < acc + totalWeight l →
      pickWeighted k l acc ≠ none := by
  intro l
  induction l with
  | nil =>
      intro k acc hacc hk
      exfalso
      simp [totalWeight] at hk
      omega
  | cons a rest ih =>
      intro k acc hacc hk
      simp only [pickWeighted]
      split
      · simp
      · next hko =>
          have hw : totalWeight (a :: rest) =
              a.weight + totalWeight rest := by simp [totalWeight]
          exact ih k (acc + a.weight) (by omega) (by omega)

/-- C5: with total weight 0, weighted selection falls back to round
robin; with W not 0 and no counter wrap, GetUpstream under
weighted_round_robin returns exactly the first healthy backend at which
the running weight sum strictly exceeds k = (c+1) mod W; on the fresh
pool [A(w=3), B(w=1)], eight selections give A six times and B twice. -/
theorem c5_weighted_round_robin :
    (∀ (c : Nat) (ups : List Upstream), totalWeight ups = 0 →
      weightedRoundRobin c ups = roundRobin c ups) ∧
    (∀ (lb : LoadBalancer) (u : Upstream),
      lb.method = "weighted_round_robin" → lb.current + 1 < UINT64MOD →
      totalWeight (lb.upstreams.filter (fun v => v.healthy)) ≠ 0 →
      ((GetUpstream lb).2 = some u ↔
        ∃ i, ∃ h : i < (lb.upstreams.filter (fun v => v.healthy)).length,
          (lb.upstreams.filter (fun v => v.healthy)).get ⟨i, h⟩ = u ∧
          totalWeight ((lb.upstreams.filter (fun v => v.healthy)).take i) ≤
            (lb.current + 1) %
              totalWeight (lb.upstreams.filter (fun v => v.healthy)) ∧
          (lb.current + 1) %
              totalWeight (lb.upstreams.filter (fun v => v.healthy)) <
            totalWeight ((lb.upstreams.filter (fun v => v.healthy)).take (i + 1)))) ∧
    (countName (selectNames lbW 8) "A" = 6 ∧
     countName (selectNames lbW 8) "B" = 2) := by
  refine ⟨?_, ?_, by constructor <;> rfl⟩
  · intro c ups h
    simp [weightedRoundRobin, h]
  · intro lb u hm hc hW
    have hne : lb.upstreams.filter (fun v => v.healthy) ≠ [] := by
      intro h
      rw [h] at hW
      exact hW (by simp [totalWeight])
    have hnemp : (lb.upstreams.filter (fun v => v.healthy)).isEmpty = false := by
      simpa [List.isEmpty_iff] using hne
    set H := lb.upstreams.filter (fun v => v.healthy) with hH
    have hsel : (GetUpstream lb).2 = (weightedRoundRobin lb.current H).2 := by
      simp only [GetUpstream, selectFrom, hm]
      rw [← hH, hnemp]
      simp
    rw [hsel]
    have hWpos : 0 < totalWeight H := Nat.pos_of_ne_zero hW
    have hkdef : ((lb.current + 1) % UINT64MOD) % totalWeight H =
        (lb.current + 1) % totalWeight H := by
      rw [Nat.mod_eq_of_lt hc]
    simp only [weightedRoundRobin, if_neg hW, hkdef]
    have hklt : (lb.current + 1) % totalWeight H < totalWeight H :=
      Nat.mod_lt _ hWpos
    have hpick := pickWeighted_ne_none H ((lb.current + 1) % totalWeight H) 0
      (Nat.zero_le _) (by omega)
    rcases ho : pickWeighted ((lb.current + 1) % totalWeight H) H 0 with _ | v
    · exact absurd ho hpick
    · simp only
      have hiff := (pickWeighted_eq_some_iff H
        ((lb.current + 1) % totalWeight H) 0 (Nat.zero_le _) u)
      rw [ho] at hiff
      simpa using hiff

theorem c5_weighted_round_robin_witness :
    (GetUpstream lbW).2 = some upAW ↔
      ∃ i, ∃ h : i < (lbW.upstreams.filter (fun v => v.healthy)).length,
        (lbW.upstreams.filter (fun v => v.healthy)).get ⟨i, h⟩ = upAW ∧
        totalWeight ((lbW.upstreams.filter (fun v => v.healthy)).take i) ≤
          (lbW.current + 1) %
            totalWeight (lbW.upstreams.filter (fun v => v.healthy)) ∧
        (lbW.current + 1) %
            totalWeight (lbW.upstreams.filter (fun v => v.healthy)) <
          totalWeight ((lbW.upstreams.filter (fun v => v.healthy)).take (i + 1)) :=
  (c5_weighted_round_robin).2.1 lbW upAW rfl (by decide) (by decide)

/-- C9 counterexample: with allowed_origins = [https-app, star] the star
is not the first entry, so the code demands an exact match and passes the
non-matching origin through, while the claim (star anywhere permits every
origin as star) would admit it. -/
theorem c9_counterexample :
    corsAllowedOrigin ["https://app", "*"] "https://evil" = none ∧
    corsAllowedOriginClaim ["https://app", "*"] "https://evil" = some "*" ∧
    corsAllowedOrigin ["https://app", "*"] "https://evil" ≠
      corsAllowedOriginClaim ["https://app", "*"] "https://evil" := by
  refine ⟨by decide, by decide, by decide⟩

/-- C9 (amended): every origin is permitted with advertised star iff the
allowed list is empty or its first entry is the star; otherwise an origin
is permitted iff it exactly matches a list entry (echoed back), and a
non-matching origin makes the preflight filter pass without writing
anything — though sendResponse still stamps a star allow-origin header
on every forwarded response while the policy is enabled. -/
theorem c9_origin_rules (allowed : List String) (origin : String) :
    ((allowed = [] ∨ allowed.head? = some "*") →
      corsAllowedOrigin allowed origin = some "*") ∧
    (allowed ≠ [] → allowed.head? ≠ some "*" →
      corsAllowedOrigin allowed origin =
        (if origin ∈ allowed then some origin else none)) ∧
    (∀ cors : CORSConfig, cors.enabled = true →
      ("Access-Control-Allow-Origin", "*") ∈ sendResponseCORSHeaders cors) ∧
    (∀ cors : CORSConfig, corsAllowedOrigin cors.allowedOrigins origin = none →
      handleCORS cors origin "OPTIONS" = none) := by
  refine ⟨?_, ?_, ?_, ?_⟩
  · rintro (h | h)
    · simp [corsAllowedOrigin, h]
    · simp [corsAllowedOrigin, h]
  · intro h1 h2
    have hlen : 0 < allowed.length := List.length_pos.mpr h1
    simp [corsAllowedOrigin, hlen, h2]
  · intro cors hc
    simp [sendResponseCORSHeaders, hc]
  · intro cors hc
    simp only [handleCORS]
    split
    · rfl
    · rw [hc]

theorem c9_origin_rules_witness :
    corsAllowedOrigin [] "https://app" = some "*" :=
  (c9_origin_rules [] "https://app").1 (Or.inl rfl)

/-- C8: for an OPTIONS request whose origin the enabled policy permits,
handleCORS short-circuits with exactly a 200 response carrying the
advertised origin, the comma-space joined method and header lists,
credentials only when permitted, the decimal max-age, and content-length
zero; HandleTraffic then finishes the request with 200, touching no
upstream and no in-flight counter. -/
theorem c8_preflight (cors : CORSConfig) (origin ao : String)
    (he : cors.enabled = true)
    (hp : corsAllowedOrigin cors.allowedOrigins origin = some ao) :
    handleCORS cors origin "OPTIONS" =
      some { status := 200, headers := preflightHeaders cors ao } ∧
    (∀ (lb : LoadBalancer) (maxB maxH : Nat) (env : TrafficEnv),
      env.origin = origin → env.httpMethod = "OPTIONS" →
      env.headerLen + env.bodyLen ≠ 0 → env.headerLen + env.bodyLen ≤ maxB →
      env.parseOk = true → env.methodNonEmpty = true →
      HandleTraffic lb maxB maxH cors env = (lb, [], Outcome.resp 200)) := by
  have hcors : handleCORS cors origin "OPTIONS" =
      some { status := 200, headers := preflightHeaders cors ao } := by
    simp [handleCORS, he, hp]
  refine ⟨hcors, ?_⟩
  intro lb maxB maxH env ho hm h0 hle hpar hmeth
  simp only [HandleTraffic]
  rw [if_neg h0, if_neg (Nat.not_lt.mpr hle), if_neg (by simp [hpar]),
    if_neg (by simp [hmeth]), if_pos (by rw [ho, hm, hcors]; rfl)]

theorem c8_preflight_witness :
    handleCORS cfgS6 "https://app" "OPTIONS" =
      some { status := 200,
             headers := [("Access-Control-Allow-Origin", "https://app"),
                         ("Access-Control-Allow-Methods", "GET, POST"),
                         ("Access-Control-Allow-Headers", "Content-Type"),
                         ("Access-Control-Max-Age", "600"),
                         ("Content-Length", "0")] } :=
  (c8_preflight cfgS6 "https://app" "https://app" rfl (by decide)).1

-- Event-trace lemmas

theorem applyEvs_append (l1 l2 : List Ev) (f : String → Int) :
    applyEvs f (l1 ++ l2) = applyEvs (applyEvs f l1) l2 := by
  induction l1 generalizing f with
  | nil => rfl
  | cons e rest ih =>
      simp only [List.cons_append, applyEvs]
      exact ih _

theorem applyEvs_replicate_dispatch (k : Nat) (n : String) (f : String → Int) :
    applyEvs f (List.replicate k (Ev.dispatch n)) = f := by
  induction k generalizing f with
  | zero => rfl
  | succ j ih =>
      rw [List.replicate_succ]
      show applyEvs (fun m => applyEv f (Ev.dispatch n) m)
        (List.replicate j (Ev.dispatch n)) = f
      exact ih f

theorem applyEvs_bracket (n : String) (k : Nat) (f : String → Int) (m : String) :
    applyEvs f (Ev.acquire n ::
      (List.replicate k (Ev.dispatch n) ++ [Ev.release n])) m = f m := by
  show applyEvs (fun x => applyEv f (Ev.acquire n) x)
    (List.replicate k (Ev.dispatch n) ++ [Ev.release n]) m = f m
  rw [applyEvs_append, applyEvs_replicate_dispatch]
  show applyEv (fun x => applyEv f (Ev.acquire n) x) (Ev.release n) m = f m
  simp only [applyEv]
  by_cases hm : m = n
  · simp [hm]
  · simp [hm]

theorem countEv_cons (a : Ev) (l : List Ev) (e : Ev) :
    countEv (a :: l) e = (if a = e then 1 else 0) + countEv l e := by
  by_cases h : a = e
  · simp [countEv, List.filter_cons, h, Nat.add_comm]
  · simp [countEv, List.filter_cons, h]

theorem countEv_append (l1 l2 : List Ev) (e : Ev) :
    countEv (l1 ++ l2) e = countEv l1 e + countEv l2 e := by
  simp [countEv, List.filter_append]

theorem countEv_replicate (k : Nat) (d e : Ev) (h : d ≠ e) :
    countEv (List.replicate k d) e = 0 := by
  induction k with
  | zero => rfl
  | succ j ih => rw [List.replicate_succ, countEv_cons]; simp [h, ih]

theorem countEv_bracket_acquire (n : String) (k : Nat) :
    countEv (Ev.acquire n ::
      (List.replicate k (Ev.dispatch n) ++ [Ev.release n])) (Ev.acquire n) = 1 := by
  rw [countEv_cons, countEv_append, countEv_replicate k _ _ (by simp)]
  simp [countEv]

theorem countEv_bracket_release (n : String) (k : Nat) :
    countEv (Ev.acquire n ::
      (List.replicate k (Ev.dispatch n) ++ [Ev.release n])) (Ev.release n) = 1 := by
  rw [countEv_cons, countEv_append, countEv_replicate k _ _ (by simp)]
  simp [countEv]

-- HandleTraffic trace structure

theorem handleTraffic_trace (lb : LoadBalancer) (maxB maxH : Nat)
    (cors : CORSConfig) (env : TrafficEnv) :
    (HandleTraffic lb maxB maxH cors env).2.1 = [] ∨
    ∃ n k, (HandleTraffic lb maxB maxH cors env).2.1 =
      Ev.acquire n :: (List.replicate k (Ev.dispatch n) ++ [Ev.release n]) := by
  simp only [HandleTraffic]
  split
  · exact Or.inl rfl
  split
  · exact Or.inl rfl
  split
  · exact Or.inl rfl
  split
  · exact Or.inl rfl
  split
  · exact Or.inl rfl
  split
  · exact Or.inl rfl
  · next u heq =>
      split
      · exact Or.inr ⟨u.name, _, rfl⟩
      split
      · exact Or.inr ⟨u.name, _, rfl⟩
      · exact Or.inr ⟨u.name, _, rfl⟩

theorem handleTraffic_step5 (lb : LoadBalancer) (maxB maxH : Nat)
    (cors : CORSConfig) (env : TrafficEnv) (u : Upstream)
    (hg : gatesPass maxB cors env = true) (hu : (GetUpstream lb).2 = some u) :
    HandleTraffic lb maxB maxH cors env =
      ((forwardRequest (GetUpstream lb).1 u env.fails).1,
       Ev.acquire u.name ::
         (List.replicate (forwardRequest (GetUpstream lb).1 u env.fails).2.1
            (Ev.dispatch u.name) ++ [Ev.release u.name]),
       if (forwardRequest (GetUpstream lb).1 u env.fails).2.2 = false then
         Outcome.resp 502
       else if env.sendOk = false then Outcome.connClose
       else Outcome.served) := by
  simp only [gatesPass, Bool.and_eq_true, decide_eq_true_eq,
    Bool.not_eq_true'] at hg
  obtain ⟨⟨⟨⟨h1, h2⟩, h3⟩, h4⟩, h5⟩ := hg
  simp only [HandleTraffic]
  rw [if_neg h1, if_neg (Nat.not_lt.mpr h2), if_neg (by simp [h3]),
    if_neg (by simp [h4]), if_neg (by simp [h5]), hu]
  by_cases hf : (forwardRequest (GetUpstream lb).1 u env.fails).2.2 = false
  · simp [hf]
  · by_cases hs : env.sendOk = false
    · simp [hf, hs]
    · simp [hf, hs]

theorem handleWebSocket_trace (lb : LoadBalancer) (env : WsEnv) :
    ((GetUpstream lb).2 = none → (HandleWebSocket lb env).2.1 = []) ∧
    (∀ u, (GetUpstream lb).2 = some u →
      (HandleWebSocket lb env).2.1 = [Ev.acquire u.name, Ev.release u.name]) := by
  constructor
  · intro hu
    simp only [HandleWebSocket]
    rw [hu]
  · intro u hu
    simp only [HandleWebSocket]
    rw [hu]
    simp only
    split
    · rfl
    split
    · rfl
    split
    · rfl
    · rfl

/-- C2: for every accepted request, the event trace of the hot-path
forwarder and of the WebSocket relay leaves the in-flight counter of every backend exactly where it started; whenever upstream selection succeeds
(step 5 reached), the chosen backend is acquired exactly once and
released exactly once. -/
theorem c2_acquire_release (lb : LoadBalancer) (maxB maxH : Nat)
    (cors : CORSConfig) (env : TrafficEnv) (wsenv : WsEnv) :
    (∀ (f : String → Int) (m : String),
      applyEvs f (HandleTraffic lb maxB maxH cors env).2.1 m = f m) ∧
    (∀ u, gatesPass maxB cors env = true → (GetUpstream lb).2 = some u →
      countEv (HandleTraffic lb maxB maxH cors env).2.1 (Ev.acquire u.name) = 1 ∧
      countEv (HandleTraffic lb maxB maxH cors env).2.1 (Ev.release u.name) = 1) ∧
    (∀ (f : String → Int) (m : String),
      applyEvs f (HandleWebSocket lb wsenv).2.1 m = f m) ∧
    (∀ u, (GetUpstream lb).2 = some u →
      countEv (HandleWebSocket lb wsenv).2.1 (Ev.acquire u.name) = 1 ∧
      countEv (HandleWebSocket lb wsenv).2.1 (Ev.release u.name) = 1) := by
  refine ⟨?_, ?_, ?_, ?_⟩
  · intro f m
    rcases handleTraffic_trace lb maxB maxH cors env with h | ⟨n, k, h⟩
    · rw [h]; rfl
    · rw [h]; exact applyEvs_bracket n k f m
  · intro u hg hu
    rw [handleTraffic_step5 lb maxB maxH cors env u hg hu]
    exact ⟨countEv_bracket_acquire u.name _, countEv_bracket_release u.name _⟩
  · intro f m
    rcases hu : (GetUpstream lb).2 with _ | u
    · rw [(handleWebSocket_trace lb wsenv).1 hu]; rfl
    · rw [(handleWebSocket_trace lb wsenv).2 u hu]
      have := applyEvs_bracket u.name 0 f m
      simpa using this
  · intro u hu
    rw [(handleWebSocket_trace lb wsenv).2 u hu]
    have ha := countEv_bracket_acquire u.name 0
    have hr := countEv_bracket_release u.name 0
    simp only [List.replicate, List.nil_append] at ha hr
    exact ⟨ha, hr⟩

theorem c2_acquire_release_witness :
    countEv (HandleTraffic lb1 4096 8192 corsOff envOk).2.1 (Ev.acquire upA.name) = 1 ∧
    countEv (HandleTraffic lb1 4096 8192 corsOff envOk).2.1 (Ev.release upA.name) = 1 :=
  (c2_acquire_release lb1 4096 8192 corsOff envOk wsEnvOk).2.1 upA (by decide) (by decide)

-- Retry loop unfoldings

theorem hotLoop_two (fails : Nat → Bool) :
    hotLoop fails 2 0 =
      if fails 0 = false then (1, false, true)
      else if fails 1 = false then (2, false, true)
      else (2, true, false) := by
  by_cases h0 : fails 0 = false
  · simp [hotLoop, h0]
  · by_cases h1 : fails 1 = false
    · simp [hotLoop, h0, h1]
    · simp [hotLoop, h0, h1]

theorem httpLoop_four (fails : Nat → Bool) :
    httpLoop fails 4 0 =
      if fails 0 = false then (1, true)
      else if fails 1 = false then (2, true)
      else if fails 2 = false then (3, true)
      else if fails 3 = false then (4, true)
      else (4, false) := by
  by_cases h0 : fails 0 = false
  · simp [httpLoop, h0]
  · by_cases h1 : fails 1 = false
    · simp [httpLoop, h0, h1]
    · by_cases h2 : fails 2 = false
      · simp [httpLoop, h0, h1, h2]
      · by_cases h3 : fails 3 = false
        · simp [httpLoop, h0, h1, h2, h3]
        · simp [httpLoop, h0, h1, h2, h3]

theorem markUnhealthy_named (lb : LoadBalancer) (n : String) :
    ∀ v ∈ (MarkUnhealthy lb n).upstreams, v.name = n → v.healthy = false := by
  intro v hv hn
  simp only [MarkUnhealthy, List.mem_map] at hv
  obtain ⟨w, _, hmap⟩ := hv
  by_cases h : w.name = n
  · simp only [markOne, if_pos h] at hmap
    rw [← hmap]
  · simp only [markOne, if_neg h] at hmap
    rw [← hmap] at hn
    exact absurd hn h

/-- C3 counterexample: on the context-bound HTTP path with every attempt
failing, the client receives 502 Bad Gateway after four dispatches, yet
the chosen backend is NOT marked unhealthy — its healthy flag survives —
contradicting the claim that the failure of the last attempt marks the
backend unhealthy on both paths. -/
theorem c3_counterexample :
    (HandleHTTPProxy lb1 true allFail).2.2 = Outcome.resp 502 ∧
    countEv (HandleHTTPProxy lb1 true allFail).2.1 (Ev.dispatch "A") = 4 ∧
    (HandleHTTPProxy lb1 true allFail).1.upstreams.all (fun u => u.healthy) = true := by
  refine ⟨by decide, by decide, by decide⟩

/-- C3 (amended): the hot gnet path dispatches at most twice (its retry
budget R = 2 bounds total attempts, not R+1) and the context-bound HTTP
path at most four times (R+1 with R = 3); on either path the client
receives 502 iff every attempt fails; only the hot path then marks the
chosen backend unhealthy — HandleHTTPProxy leaves every health flag
untouched. -/
theorem c3_bounded_retry :
    (∀ fails : Nat → Bool,
      (hotLoop fails 2 0).1 ≤ 2 ∧
      ((hotLoop fails 2 0).2.1 = true ↔ fails 0 = true ∧ fails 1 = true) ∧
      ((hotLoop fails 2 0).2.2 = false ↔ fails 0 = true ∧ fails 1 = true) ∧
      (httpLoop fails 4 0).1 ≤ 4 ∧
      ((httpLoop fails 4 0).2 = false ↔
        fails 0 = true ∧ fails 1 = true ∧ fails 2 = true ∧ fails 3 = true)) ∧
    (∀ (lb : LoadBalancer) (u : Upstream) (fails : Nat → Bool),
      (GetUpstream lb).2 = some u →
      (((HandleHTTPProxy lb true fails).2.2 = Outcome.resp 502 ↔
          fails 0 = true ∧ fails 1 = true ∧ fails 2 = true ∧ fails 3 = true) ∧
       (HandleHTTPProxy lb true fails).1.upstreams = lb.upstreams)) ∧
    (∀ (lb : LoadBalancer) (maxB maxH : Nat) (cors : CORSConfig)
       (env : TrafficEnv) (u : Upstream),
      gatesPass maxB cors env = true → (GetUpstream lb).2 = some u →
      env.fails 0 = true → env.fails 1 = true →
      ((HandleTraffic lb maxB maxH cors env).2.2 = Outcome.resp 502 ∧
       ∀ v ∈ (HandleTraffic lb maxB maxH cors env).1.upstreams,
         v.name = u.name → v.healthy = false)) := by
  refine ⟨?_, ?_, ?_⟩
  · intro fails
    rw [hotLoop_two, httpLoop_four]
    by_cases h0 : fails 0 = false <;> by_cases h1 : fails 1 = false <;>
      by_cases h2 : fails 2 = false <;> by_cases h3 : fails 3 = false <;>
      simp [h0, h1, h2, h3]
  · intro lb u fails hu
    simp only [HandleHTTPProxy]
    rw [hu]
    simp only [Bool.true_eq_false, if_neg (by simp : ¬(true = false))]
    constructor
    · rw [httpLoop_four]
      by_cases h0 : fails 0 = false <;> by_cases h1 : fails 1 = false <;>
        by_cases h2 : fails 2 = false <;> by_cases h3 : fails 3 = false <;>
        simp [h0, h1, h2, h3, getUpstream_upstreams]
    · by_cases h : (httpLoop fails 4 0).2 = false
      · rw [if_pos h]; exact getUpstream_upstreams lb
      · rw [if_neg h]; exact getUpstream_upstreams lb
  · intro lb maxB maxH cors env u hg hu hf0 hf1
    rw [handleTraffic_step5 lb maxB maxH cors env u hg hu]
    have hhot : hotLoop env.fails 2 0 = (2, true, false) := by
      rw [hotLoop_two]
      simp [hf0, hf1]
    have hfr : forwardRequest (GetUpstream lb).1 u env.fails =
        (MarkUnhealthy (GetUpstream lb).1 u.name, 2, false) := by
      simp [forwardRequest, hhot]
    rw [hfr]
    exact ⟨rfl, markUnhealthy_named (GetUpstream lb).1 u.name⟩

theorem c3_bounded_retry_witness :
    (HandleHTTPProxy lb1 true noFail).1.upstreams = lb1.upstreams :=
  (c3_bounded_retry.2.1 lb1 upA noFail (by decide)).2

/-- C6 counterexample: a request whose headers (2048 bytes) exceed the
1024-byte header cap but whose total size stays within max_body_size is
forwarded normally — HandleTraffic never reads the header cap — so the
claimed 413 for oversized headers does not happen. -/
theorem c6_counterexample :
    1024 < envHdr.headerLen ∧
    envHdr.headerLen + envHdr.bodyLen ≤ 4096 ∧
    (HandleTraffic lb1 4096 1024 corsOff envHdr).2.2 = Outcome.served ∧
    (HandleTraffic lb1 4096 1024 corsOff envHdr).2.2 ≠ Outcome.resp 413 := by
  refine ⟨by decide, by decide, by decide, by decide⟩

/-- C6 (amended): every request whose TOTAL byte size (headers plus
body) exceeds the configured max_body_size — in particular every request
whose body alone exceeds it — is answered 413 Request Entity Too Large
with no upstream contact, no counter event, and an unchanged pool. The
configured header cap is not enforced on this path. -/
theorem c6_size_gate (lb : LoadBalancer) (maxB maxH : Nat)
    (cors : CORSConfig) (env : TrafficEnv)
    (h : maxB < env.headerLen + env.bodyLen) :
    HandleTraffic lb maxB maxH cors env = (lb, [], Outcome.resp 413) := by
  have h0 : ¬(env.headerLen + env.bodyLen = 0) := by omega
  simp only [HandleTraffic]
  rw [if_neg h0, if_pos h]

theorem c6_size_gate_witness :
    HandleTraffic lb1 1024 8192 corsOff envBig = (lb1, [], Outcome.resp 413) :=
  c6_size_gate lb1 1024 8192 corsOff envBig (by decide)

/-- C7 counterexample: after StartHealthCheck, a first StopHealthCheck
returns normally but a second one panics (close of an already-closed
shutdown channel), so the bare double-stop is not equivalent to a single
stop. -/
theorem c7_counterexample :
    (StopHealthCheck (StartHealthCheck ⟨none, none⟩)).2 = false ∧
    (StopHealthCheck (StopHealthCheck (StartHealthCheck ⟨none, none⟩)).1).2 = true := by
  refine ⟨by decide, by decide⟩

/-- C7 (amended): the bare StopHealthCheck panics when repeated, but
every caller wraps it in recover, and the guarded stop is idempotent on
the pool state; consequently shutdownServerInstance is idempotent:
running it twice leaves the instance exactly as one run does. -/
theorem c7_idempotent_shutdown :
    (∀ s : HealthLife,
      guardedStopHealthCheck (guardedStopHealthCheck s) = guardedStopHealthCheck s) ∧
    (∀ i : InstanceState,
      shutdownServerInstance (shutdownServerInstance i) = shutdownServerInstance i) := by
  have hg : ∀ s : HealthLife,
      guardedStopHealthCheck (guardedStopHealthCheck s) = guardedStopHealthCheck s := by
    intro s
    rcases s with ⟨t, c⟩
    rcases t with _ | b <;> rcases c with _ | (_ | _) <;> rfl
  refine ⟨hg, ?_⟩
  intro i
  simp only [shutdownServerInstance, hg]

/-- C10: immediately after NewLoadBalancer / NewWebSocketLoadBalancer,
the healthy flag of every backend is set, so before any probe runs GetUpstream
on a non-empty pool never returns NONE. -/
theorem c10_initial_health (cfgs : List UpstreamConfig) (method : String) :
    (∀ u ∈ (NewLoadBalancer cfgs method).upstreams, u.healthy = true) ∧
    (∀ u ∈ (NewWebSocketLoadBalancer cfgs method).upstreams, u.healthy = true) ∧
    (cfgs ≠ [] → (GetUpstream (NewLoadBalancer cfgs method)).2 ≠ none) ∧
    (cfgs ≠ [] → (GetUpstream (NewWebSocketLoadBalancer cfgs method)).2 ≠ none) := by
  have hall : ∀ u ∈ cfgs.map mkUpstream, u.healthy = true := by
    intro u hu
    obtain ⟨c, _, rfl⟩ := List.mem_map.mp hu
    rfl
  have hfil : (cfgs.map mkUpstream).filter (fun u => u.healthy) = cfgs.map mkUpstream :=
    List.filter_eq_self.mpr (by intro a ha; simp [hall a ha])
  have hnn : ∀ m : String, cfgs ≠ [] →
      (GetUpstream (NewLoadBalancer cfgs m)).2 ≠ none := by
    intro m hne h
    rw [getUpstream_none_iff] at h
    simp only [NewLoadBalancer] at h
    rw [hfil] at h
    exact hne (by simpa using h)
  refine ⟨hall, hall, hnn method, ?_⟩
  intro hne
  show (GetUpstream (NewLoadBalancer cfgs method)).2 ≠ none
  exact hnn method hne

theorem c10_initial_health_witness :
    (GetUpstream (NewLoadBalancer [ucA] "round_robin")).2 ≠ none :=
  (c10_initial_health [ucA] "round_robin").2.2.1 (by decide)

end Surikiti
